import Mathlib

/-!
# Verification of the LF Pulse core

Shallow embedding of the Pulse codec and generation algorithm of the LF
key/value store (`pulse.go` and `errors.go`).  Bytes are `Fin 256`, byte
strings are lists of bytes, `uint64` values are naturals that the byte
codec reduces mod 2^64.

The one-way 64-bit chain primitive `th64n`, the constant
`RecordMaxPulseSpan`, the SHA-256 digest and the `Owner` type are not part
of the embedded sources; following the spec they are treated as supplied
parameters (the chain primitive as an iterated 64-bit mixing transform).
-/

namespace LF

/-- A byte, as Go's `byte` (`uint8`). -/
abbrev Byte := Fin 256

/-- Raw byte string (`type Blob []byte` in the surrounding repo). -/
abbrev Blob := List Byte

/-- PulseSize is the size of a pulse in bytes. -/
def PulseSize : Nat := 11

/-- Pulse encodes a pulse key and a 24-bit number of minutes that it
represents (`type Pulse Blob`). -/
abbrev Pulse := Blob

/-- Big-endian value of a byte string, as `binary.BigEndian.Uint64`. -/
def beUint64 (b : Blob) : Nat :=
  b.foldl (fun a x => a * 256 + x.val) 0

/-- Truncation of a natural to one byte, as Go's `byte(x)`. -/
def byteOf (x : Nat) : Byte :=
  ⟨x % 256, Nat.mod_lt x (by decide)⟩

/-- Encoding of the low 64 bits of `x` as 8 big-endian bytes, as
`binary.BigEndian.PutUint64`. -/
def putUint64BE (x : Nat) : Blob :=
  [byteOf (x >>> 56), byteOf (x >>> 48), byteOf (x >>> 40), byteOf (x >>> 32),
   byteOf (x >>> 24), byteOf (x >>> 16), byteOf (x >>> 8), byteOf x]

/-- Key returns the 64-bit pulse key: `0` when the length is not
`PulseSize`, else the big-endian value of bytes 0..7. -/
def Pulse.Key (p : Pulse) : Nat :=
  if p.length ≠ PulseSize then 0
  else beUint64 (p.take 8)

/-- Minutes returns the number of minutes represented by this pulse: `0`
when the length is not `PulseSize`, else the 24-bit big-endian value of
bytes 8..10, clamped to `RecordMaxPulseSpan`.  (The out-of-range byte
accesses of the source are total here via `getD`; they are guarded by the
length test exactly as in the source.) -/
def Pulse.Minutes (RecordMaxPulseSpan : Nat) (p : Pulse) : Nat :=
  if p.length ≠ PulseSize then 0
  else
    let minutes := ((p.getD 8 0).val <<< 16) ||| ((p.getD 9 0).val <<< 8) ||| (p.getD 10 0).val
    if minutes > RecordMaxPulseSpan then RecordMaxPulseSpan else minutes

/-- Modelled from the spec: the one-way chain engine `th64n` is not among
the embedded sources.  §4.3: "`chain(x, n)` applies a fixed, pure, one-way
64-bit mixing transform to `x` exactly `n` times; `n = 0` is the
identity".  The mixing transform is the parameter `step`. -/
def th64n (step : Nat → Nat) (x : Nat) (n : Nat) : Nat :=
  step^[n] x

/-- Token returns the record PulseToken that should match this pulse:
`th64n(p.Key(), p.Minutes())`. -/
def Pulse.Token (step : Nat → Nat) (RecordMaxPulseSpan : Nat) (p : Pulse) : Nat :=
  th64n step (Pulse.Key p) (Pulse.Minutes RecordMaxPulseSpan p)

/-- Modelled from the spec: the `Owner` type is not among the embedded
sources.  §6: the core consumes "a capability check (has private signing
material)" — field `Private`, `none` for Go's `nil` — "and a derived
private-material hash function producing a fixed-size digest" — field
`PrivateHash`, the bytes `ophash[:]` of `owner.PrivateHash()`. -/
structure Owner where
  Private : Option Blob
  PrivateHash : Blob

/-- Error strings, as `type Err string` of `errors.go`. -/
abbrev Err := String

/-- Sentinel error `ErrInvalidParameter` of `errors.go`. -/
def ErrInvalidParameter : Err := "invalid parameter"

/-- Sentinel error `ErrPrivateKeyRequired` of `errors.go`. -/
def ErrPrivateKeyRequired : Err := "private key required"

/-- The selector part of the pulse-token hash pre-image (the loop of
`NewPulse`): each selector name followed by its ordinal as 8 big-endian
bytes when the ordinal list is long enough (`i < len(selectorOrdinals)`),
ordinals beyond the names being ignored. -/
def selectorMsg : List Blob → List Nat → Blob
  | [], _ => []
  | n :: ns, [] => n ++ selectorMsg ns []
  | n :: ns, o :: os => n ++ putUint64BE o ++ selectorMsg ns os

/-- NewPulse generates a pulse for a given record from its selectors,
timestamp, and the owner's private key.  `sha` models the `crypto/sha256`
digest, `step` the 64-bit mixing transform of the chain engine and
`RecordMaxPulseSpan` the externally supplied constant (none of the three
is among the embedded sources).  The result models Go's named returns
`(p Pulse, err error)`: on error the pulse result keeps its zero value
(the empty blob). -/
def NewPulse (sha : Blob → Blob) (step : Nat → Nat) (RecordMaxPulseSpan : Nat)
    (owner : Owner) (selectorNames : List Blob) (selectorOrdinals : List Nat)
    (recordTimestamp : Nat) (minutes : Nat) : Pulse × Option Err :=
  match owner.Private with
  | none => ([], some ErrPrivateKeyRequired)
  | some _ =>
    if minutes > RecordMaxPulseSpan then ([], some ErrInvalidParameter)
    else
      let msg := selectorMsg selectorNames selectorOrdinals ++
        putUint64BE recordTimestamp ++ owner.PrivateHash
      let seed := beUint64 ((sha msg).take 8)
      (putUint64BE (th64n step seed (RecordMaxPulseSpan - minutes)) ++
        [byteOf (minutes >>> 16), byteOf (minutes >>> 8), byteOf minutes],
       none)

/-- The anchor seed derived inside `NewPulse`: the 64-bit big-endian value
of the first 8 digest bytes of the selector/timestamp/owner-hash message. -/
def pulseSeed (sha : Blob → Blob) (owner : Owner) (selectorNames : List Blob)
    (selectorOrdinals : List Nat) (recordTimestamp : Nat) : Nat :=
  beUint64 ((sha (selectorMsg selectorNames selectorOrdinals ++
    putUint64BE recordTimestamp ++ owner.PrivateHash)).take 8)

/-- The raw 24-bit big-endian integer in bytes 8..10 of a pulse, written
from the spec's words ("the 24-bit big-endian integer from bytes 8..10"). -/
def rawMinutes (p : Pulse) : Nat :=
  (p.getD 8 0).val * 65536 + (p.getD 9 0).val * 256 + (p.getD 10 0).val

/-- The anchor-seed digest pre-image as §4.2 step 1 of the spec describes
it: for each selector index `i`, the name bytes followed — only when `i`
is within range of the ordinal list — by the ordinal as 8 big-endian
bytes; then the timestamp as 8 big-endian bytes; then the owner
private-material hash. -/
def specSeedMessage (selectorNames : List Blob) (selectorOrdinals : List Nat)
    (recordTimestamp : Nat) (ophash : Blob) : Blob :=
  ((List.range selectorNames.length).map fun i =>
      selectorNames.getD i [] ++
        (if i < selectorOrdinals.length then putUint64BE (selectorOrdinals.getD i 0)
         else [])).flatten ++ putUint64BE recordTimestamp ++ ophash

/-! ## Concrete instances used to exercise the theorems -/

/-- A 64-bit mixing transform used in concrete instantiations. -/
def tStep (y : Nat) : Nat := (y + 1) % 2 ^ 64

/-- A digest stub used in concrete instantiations (constant 8-byte
digest, so the derived seed is 7). -/
def tSha (_ : Blob) : Blob := putUint64BE 7

/-- An owner holding private key material. -/
def tOwner : Owner := ⟨some [], [byteOf 9]⟩

/-- An owner without private key material. -/
def tOwnerNoKey : Owner := ⟨none, [byteOf 9]⟩

/-! ## Arithmetic facts about the byte codec and the chain engine -/

lemma beUint64_foldl_lt (l : Blob) : ∀ a : Nat,
    l.foldl (fun a x => a * 256 + x.val) a < (a + 1) * 256 ^ l.length := by
  induction l with
  | nil => intro a; simp
  | cons x l ih =>
    intro a
    have h1 : (List.foldl (fun a x => a * 256 + x.val) (a * 256 + x.val) l) <
        (a * 256 + x.val + 1) * 256 ^ l.length := ih _
    have h2 : (a * 256 + x.val + 1) ≤ (a + 1) * 256 := by
      have := x.isLt; omega
    calc List.foldl (fun a x => a * 256 + x.val) (a * 256 + x.val) l
        < (a * 256 + x.val + 1) * 256 ^ l.length := h1
      _ ≤ ((a + 1) * 256) * 256 ^ l.length := Nat.mul_le_mul_right _ h2
      _ = (a + 1) * 256 ^ (l.length + 1) := by ring

/-- A big-endian value read from at most 8 bytes fits in 64 bits. -/
lemma beUint64_lt (l : Blob) (h : l.length ≤ 8) : beUint64 l < 2 ^ 64 := by
  have h1 := beUint64_foldl_lt l 0
  have h2 : (0 + 1) * 256 ^ l.length ≤ 256 ^ 8 := by
    simpa using Nat.pow_le_pow_right (by norm_num) h
  calc beUint64 l < (0 + 1) * 256 ^ l.length := h1
    _ ≤ 256 ^ 8 := h2
    _ = 2 ^ 64 := by norm_num

/-- Decoding inverts encoding for 64-bit values. -/
lemma beUint64_putUint64BE (x : Nat) (h : x < 2 ^ 64) :
    beUint64 (putUint64BE x) = x := by
  simp only [beUint64, putUint64BE, byteOf, List.foldl]
  simp only [Nat.shiftRight_eq_div_pow]
  norm_num
  omega

lemma th64n_zero (step : Nat → Nat) (x : Nat) : th64n step x 0 = x := rfl

/-- The composition law of the chain engine (§4.3 of the spec), which holds
definitionally for any iterated transform. -/
lemma th64n_add (step : Nat → Nat) (x a b : Nat) :
    th64n step (th64n step x a) b = th64n step x (a + b) := by
  simp [th64n, Nat.add_comm a b, Function.iterate_add_apply]

/-- A 64-bit-valued mixing transform keeps the chain inside 64 bits. -/
lemma th64n_lt (step : Nat → Nat) (hstep : ∀ y, step y < 2 ^ 64)
    (x : Nat) (hx : x < 2 ^ 64) (n : Nat) : th64n step x n < 2 ^ 64 := by
  cases n with
  | zero => simpa [th64n] using hx
  | succ m =>
    have h : th64n step x (m + 1) = step (th64n step x m) := by
      simp [th64n, Function.iterate_succ_apply']
    rw [h]; exact hstep _

/-- The shift/or combination of three bytes is their base-256 value. -/
lemma bytes24 (i j k : Nat) (hj : j < 256) (hk : k < 256) :
    (i <<< 16) ||| (j <<< 8) ||| k = i * 65536 + j * 256 + k := by
  have e1 : j <<< 8 = 2 ^ 8 * j := by rw [Nat.shiftLeft_eq]; ring
  have e2 : i <<< 16 = 2 ^ 16 * i := by rw [Nat.shiftLeft_eq]; ring
  have h1 : 2 ^ 8 * j + k = 2 ^ 8 * j ||| k := Nat.mul_add_lt_is_or (by omega) j
  have h2 : 2 ^ 16 * i + (2 ^ 8 * j + k) = 2 ^ 16 * i ||| (2 ^ 8 * j + k) :=
    Nat.mul_add_lt_is_or (by omega) i
  rw [Nat.lor_assoc, e1, e2, ← h1, ← h2]
  ring

/-! ## The shape of a successfully generated pulse -/

lemma pulseSeed_lt (sha : Blob → Blob) (owner : Owner) (ns : List Blob)
    (os : List Nat) (ts : Nat) : pulseSeed sha owner ns os ts < 2 ^ 64 :=
  beUint64_lt _ (by simp)

/-- The exact value a successful `NewPulse` call returns. -/
lemma newPulse_ok (sha : Blob → Blob) (step : Nat → Nat) (Max : Nat) (owner : Owner)
    (ns : List Blob) (os : List Nat) (ts m : Nat) (key : Blob)
    (hpk : owner.Private = some key) (hm : m ≤ Max) :
    NewPulse sha step Max owner ns os ts m =
      (putUint64BE (th64n step (pulseSeed sha owner ns os ts) (Max - m)) ++
        [byteOf (m >>> 16), byteOf (m >>> 8), byteOf m], none) := by
  simp [NewPulse, hpk, pulseSeed, Nat.not_lt.mpr hm]

lemma length_pulseShape (cv : Nat) (b8 b9 b10 : Byte) :
    (putUint64BE cv ++ [b8, b9, b10] : Blob).length = PulseSize := by
  simp [putUint64BE, PulseSize]

lemma take8_pulseShape (cv : Nat) (b8 b9 b10 : Byte) :
    (putUint64BE cv ++ [b8, b9, b10] : Blob).take 8 = putUint64BE cv := by
  have h8 : (putUint64BE cv).length = 8 := by simp [putUint64BE]
  rw [← h8, List.take_left]

/-- Decoding the key of a generated pulse gives back the encoded chain value. -/
lemma key_pulseShape (cv : Nat) (hcv : cv < 2 ^ 64) (b8 b9 b10 : Byte) :
    Pulse.Key (putUint64BE cv ++ [b8, b9, b10]) = cv := by
  have htake : (putUint64BE cv ++ [b8, b9, b10] : Blob).take 8 = putUint64BE cv := by
    have h8 : (putUint64BE cv).length = 8 := by simp [putUint64BE]
    rw [← h8, List.take_left]
  rw [Pulse.Key, if_neg (by simp [putUint64BE, PulseSize]), htake,
    beUint64_putUint64BE cv hcv]

/-- Decoding the minutes of a generated pulse gives back the encoded value. -/
lemma minutes_pulseShape (Max cv m : Nat) (hm : m ≤ Max) (hMax : Max < 2 ^ 24) :
    Pulse.Minutes Max
      (putUint64BE cv ++ [byteOf (m >>> 16), byteOf (m >>> 8), byteOf m]) = m := by
  have hv : ((byteOf (m >>> 16)).val <<< 16) |||
      ((byteOf (m >>> 8)).val <<< 8) ||| (byteOf m).val = m := by
    simp only [byteOf]
    rw [bytes24 _ _ _ (Nat.mod_lt _ (by decide)) (Nat.mod_lt _ (by decide))]
    simp only [Nat.shiftRight_eq_div_pow]
    omega
  rw [Pulse.Minutes, if_neg (by simp [putUint64BE, PulseSize])]
  simp only [putUint64BE, List.cons_append, List.nil_append,
    List.getD_cons_succ, List.getD_cons_zero]
  rw [hv, if_neg (by omega)]

/-! ## Selector-message lemmas -/

/-- The selector loop of `NewPulse` hashes exactly the bytes the spec
describes selector-index by selector-index. -/
lemma selectorMsg_eq_spec (ns : List Blob) (os : List Nat) :
    selectorMsg ns os =
      ((List.range ns.length).map fun i =>
        ns.getD i [] ++
          (if i < os.length then putUint64BE (os.getD i 0) else [])).flatten := by
  induction ns generalizing os with
  | nil => simp [selectorMsg]
  | cons n ns ih =>
    cases os with
    | nil =>
      simp only [selectorMsg, List.length_cons, List.range_succ_eq_map,
        List.map_cons, List.flatten_cons, List.map_map]
      rw [ih []]
      simp [Function.comp_def]
    | cons o os2 =>
      simp only [selectorMsg, List.length_cons, List.range_succ_eq_map,
        List.map_cons, List.flatten_cons, List.map_map]
      rw [ih os2]
      simp [Function.comp_def, List.append_assoc]

/-- The selector loop never reads ordinals beyond the selector names. -/
lemma selectorMsg_take (ns : List Blob) (os : List Nat) :
    selectorMsg ns os = selectorMsg ns (os.take ns.length) := by
  induction ns generalizing os with
  | nil => cases os <;> rfl
  | cons n ns ih =>
    cases os with
    | nil => rfl
    | cons o os2 =>
      simp only [selectorMsg, List.length_cons, List.take_succ_cons, ih os2]

/-! ## The claims -/

/-- Claim C1: for every owner holding private key material, selector
lists, record timestamp, and minutes `m ≤ RecordMaxPulseSpan`, with the
chain primitive an iterated 64-bit mixing transform (so the composition
law `chain(chain(x,a),b) = chain(x,a+b)` and the identity `chain(x,0) = x`
hold), `NewPulse` succeeds and the returned pulse's `Token` equals
`chain(S, RecordMaxPulseSpan)` for the anchor seed `S` — independent of
which `m` was chosen, since `m` does not occur on the right-hand side. -/
theorem C1_token_is_full_chain_anchor (sha : Blob → Blob) (step : Nat → Nat)
    (Max : Nat) (owner : Owner) (ns : List Blob) (os : List Nat) (ts m : Nat)
    (key : Blob) (hpk : owner.Private = some key) (hm : m ≤ Max)
    (hMax : Max < 2 ^ 24) (hstep : ∀ y, step y < 2 ^ 64) :
    (NewPulse sha step Max owner ns os ts m).2 = none ∧
    Pulse.Token step Max (NewPulse sha step Max owner ns os ts m).1 =
      th64n step (pulseSeed sha owner ns os ts) Max := by
  rw [newPulse_ok sha step Max owner ns os ts m key hpk hm]
  refine ⟨rfl, ?_⟩
  have hcv : th64n step (pulseSeed sha owner ns os ts) (Max - m) < 2 ^ 64 :=
    th64n_lt step hstep _ (pulseSeed_lt sha owner ns os ts) _
  rw [Pulse.Token, key_pulseShape _ hcv, minutes_pulseShape Max _ m hm hMax,
    th64n_add, Nat.sub_add_cancel hm]

/-- Claim C1 witness: a concrete successful generation whose token is the
full-length chain anchor. -/
theorem C1_token_is_full_chain_anchor_witness :
    (NewPulse tSha tStep 30 tOwner [[byteOf 2]] [3] 5 7).2 = none ∧
    Pulse.Token tStep 30 (NewPulse tSha tStep 30 tOwner [[byteOf 2]] [3] 5 7).1 =
      th64n tStep (pulseSeed tSha tOwner [[byteOf 2]] [3] 5) 30 :=
  C1_token_is_full_chain_anchor tSha tStep 30 tOwner [[byteOf 2]] [3] 5 7 []
    rfl (by decide) (by decide) (fun y => Nat.mod_lt (y + 1) (by norm_num))

/-- Claim C2: the 64-bit chain value in bytes 0..7 of a successful pulse
is `chain(S, RecordMaxPulseSpan - minutes)` where `S` is the big-endian
64-bit prefix of the digest of the message the spec describes: selector
names with their in-range ordinals as 8 big-endian bytes, the 8-byte
big-endian timestamp, and the owner's private-material hash. -/
theorem C2_chain_value_from_seed (sha : Blob → Blob) (step : Nat → Nat)
    (Max : Nat) (owner : Owner) (ns : List Blob) (os : List Nat) (ts m : Nat)
    (key : Blob) (hpk : owner.Private = some key) (hm : m ≤ Max)
    (hstep : ∀ y, step y < 2 ^ 64) :
    Pulse.Key (NewPulse sha step Max owner ns os ts m).1 =
      th64n step
        (beUint64 ((sha (specSeedMessage ns os ts owner.PrivateHash)).take 8))
        (Max - m) := by
  rw [newPulse_ok sha step Max owner ns os ts m key hpk hm]
  have hcv : th64n step (pulseSeed sha owner ns os ts) (Max - m) < 2 ^ 64 :=
    th64n_lt step hstep _ (pulseSeed_lt sha owner ns os ts) _
  rw [key_pulseShape _ hcv, pulseSeed, specSeedMessage, selectorMsg_eq_spec]

/-- Claim C2 witness: a concrete evaluation of the chain-value equation. -/
theorem C2_chain_value_from_seed_witness :
    Pulse.Key (NewPulse tSha tStep 30 tOwner [[byteOf 2]] [3] 5 7).1 =
      th64n tStep
        (beUint64 ((tSha (specSeedMessage [[byteOf 2]] [3] 5 tOwner.PrivateHash)).take 8))
        (30 - 7) :=
  C2_chain_value_from_seed tSha tStep 30 tOwner [[byteOf 2]] [3] 5 7 []
    rfl (by decide) (fun y => Nat.mod_lt (y + 1) (by norm_num))

/-- Claim C3: encode/decode round-trip — for every
`m ≤ RecordMaxPulseSpan`, `NewPulse` succeeds with an 11-byte pulse whose
decoded minutes are exactly `m` (in particular `m = RecordMaxPulseSpan`
round-trips losslessly) and whose decoded key is exactly the chain value
that was encoded into bytes 0..7. -/
theorem C3_roundtrip (sha : Blob → Blob) (step : Nat → Nat)
    (Max : Nat) (owner : Owner) (ns : List Blob) (os : List Nat) (ts m : Nat)
    (key : Blob) (hpk : owner.Private = some key) (hm : m ≤ Max)
    (hMax : Max < 2 ^ 24) (hstep : ∀ y, step y < 2 ^ 64) :
    (NewPulse sha step Max owner ns os ts m).2 = none ∧
    (NewPulse sha step Max owner ns os ts m).1.length = PulseSize ∧
    Pulse.Minutes Max (NewPulse sha step Max owner ns os ts m).1 = m ∧
    Pulse.Key (NewPulse sha step Max owner ns os ts m).1 =
      th64n step (pulseSeed sha owner ns os ts) (Max - m) := by
  rw [newPulse_ok sha step Max owner ns os ts m key hpk hm]
  have hcv : th64n step (pulseSeed sha owner ns os ts) (Max - m) < 2 ^ 64 :=
    th64n_lt step hstep _ (pulseSeed_lt sha owner ns os ts) _
  exact ⟨rfl, length_pulseShape _ _ _ _,
    minutes_pulseShape Max _ m hm hMax, key_pulseShape _ hcv _ _ _⟩

/-- Claim C3 witness: a concrete round-trip at the boundary
`m = RecordMaxPulseSpan`. -/
theorem C3_roundtrip_witness :
    (NewPulse tSha tStep 30 tOwner [[byteOf 2]] [3] 5 30).2 = none ∧
    (NewPulse tSha tStep 30 tOwner [[byteOf 2]] [3] 5 30).1.length = PulseSize ∧
    Pulse.Minutes 30 (NewPulse tSha tStep 30 tOwner [[byteOf 2]] [3] 5 30).1 = 30 ∧
    Pulse.Key (NewPulse tSha tStep 30 tOwner [[byteOf 2]] [3] 5 30).1 =
      th64n tStep (pulseSeed tSha tOwner [[byteOf 2]] [3] 5) (30 - 30) :=
  C3_roundtrip tSha tStep 30 tOwner [[byteOf 2]] [3] 5 30 []
    rfl (by decide) (by decide) (fun y => Nat.mod_lt (y + 1) (by norm_num))

/-- Claim C4: whenever the owner has no private key material, `NewPulse`
returns the `private key required` sentinel error and no pulse, regardless
of the other arguments. -/
theorem C4_private_key_required (sha : Blob → Blob) (step : Nat → Nat)
    (Max : Nat) (owner : Owner) (ns : List Blob) (os : List Nat) (ts m : Nat)
    (h : owner.Private = none) :
    NewPulse sha step Max owner ns os ts m = ([], some ErrPrivateKeyRequired) := by
  simp [NewPulse, h]

/-- Claim C4 witness: a concrete keyless owner is rejected. -/
theorem C4_private_key_required_witness :
    NewPulse tSha tStep 30 tOwnerNoKey [[byteOf 2]] [3] 5 7 =
      ([], some ErrPrivateKeyRequired) :=
  C4_private_key_required tSha tStep 30 tOwnerNoKey [[byteOf 2]] [3] 5 7 rfl

/-- Claim C5: for an owner that does hold private key material, `NewPulse`
fails with the `invalid parameter` sentinel error exactly when
`minutes > RecordMaxPulseSpan`. -/
theorem C5_invalid_parameter_iff (sha : Blob → Blob) (step : Nat → Nat)
    (Max : Nat) (owner : Owner) (ns : List Blob) (os : List Nat) (ts m : Nat)
    (key : Blob) (hpk : owner.Private = some key) :
    (NewPulse sha step Max owner ns os ts m).2 = some ErrInvalidParameter ↔
      m > Max := by
  constructor
  · intro h
    by_contra hc
    rw [newPulse_ok sha step Max owner ns os ts m key hpk (Nat.le_of_not_lt hc)] at h
    exact Option.noConfusion h
  · intro h
    simp [NewPulse, hpk, h]

/-- Claim C5 witness: `minutes = RecordMaxPulseSpan + 1` is rejected and
`minutes = RecordMaxPulseSpan` is not. -/
theorem C5_invalid_parameter_iff_witness :
    ((NewPulse tSha tStep 30 tOwner [[byteOf 2]] [3] 5 31).2 =
      some ErrInvalidParameter ↔ 31 > 30) ∧
    ((NewPulse tSha tStep 30 tOwner [[byteOf 2]] [3] 5 30).2 =
      some ErrInvalidParameter ↔ 30 > 30) :=
  ⟨C5_invalid_parameter_iff tSha tStep 30 tOwner [[byteOf 2]] [3] 5 31 [] rfl,
   C5_invalid_parameter_iff tSha tStep 30 tOwner [[byteOf 2]] [3] 5 30 [] rfl⟩

/-- Claim C6: on any 11-byte pulse, `Minutes` returns the raw 24-bit
big-endian value of bytes 8..10, clamped to `RecordMaxPulseSpan` whenever
the raw value exceeds it — never the raw larger number and never an
error. -/
theorem C6_minutes_clamped (Max : Nat) (p : Pulse) (h : p.length = PulseSize) :
    Pulse.Minutes Max p =
      if rawMinutes p > Max then Max else rawMinutes p := by
  rw [Pulse.Minutes, if_neg (by simp [h])]
  simp only [rawMinutes]
  rw [bytes24 _ _ _ (p.getD 9 0).isLt (p.getD 10 0).isLt]

/-- Claim C6 witness: a crafted pulse whose raw minutes field `0xFFFFFF`
exceeds the bound is reported clamped. -/
theorem C6_minutes_clamped_witness :
    (List.replicate 8 (0 : Byte) ++ [255, 255, 255] : Pulse).length = PulseSize ∧
    Pulse.Minutes 30 (List.replicate 8 (0 : Byte) ++ [255, 255, 255]) =
      if rawMinutes (List.replicate 8 (0 : Byte) ++ [255, 255, 255]) > 30 then 30
      else rawMinutes (List.replicate 8 (0 : Byte) ++ [255, 255, 255]) :=
  ⟨by decide, C6_minutes_clamped 30 _ (by decide)⟩

/-- Claim C7: a byte sequence whose length is not 11 degrades to zero on
both accessors instead of failing. -/
theorem C7_degenerate_accessors (Max : Nat) (p : Pulse)
    (h : p.length ≠ PulseSize) :
    Pulse.Key p = 0 ∧ Pulse.Minutes Max p = 0 :=
  ⟨by rw [Pulse.Key, if_pos h], by rw [Pulse.Minutes, if_pos h]⟩

/-- Claim C7 witness: a 3-byte blob decodes to zero key and zero
minutes. -/
theorem C7_degenerate_accessors_witness :
    Pulse.Key [1, 2, 3] = 0 ∧ Pulse.Minutes 30 [1, 2, 3] = 0 :=
  C7_degenerate_accessors 30 [1, 2, 3] (by decide)

/-- Claim C8: whenever `NewPulse` reports an error, the pulse result is
the empty blob (never a partially filled buffer) and the error is exactly
one of the two sentinel errors, unmodified. -/
theorem C8_error_returns_no_pulse (sha : Blob → Blob) (step : Nat → Nat)
    (Max : Nat) (owner : Owner) (ns : List Blob) (os : List Nat) (ts m : Nat)
    (e : Err) (h : (NewPulse sha step Max owner ns os ts m).2 = some e) :
    (NewPulse sha step Max owner ns os ts m).1 = [] ∧
      (e = ErrPrivateKeyRequired ∨ e = ErrInvalidParameter) := by
  rcases hpo : owner.Private with _ | key
  · have he : NewPulse sha step Max owner ns os ts m =
        ([], some ErrPrivateKeyRequired) := by
      simp [NewPulse, hpo]
    rw [he] at h ⊢
    exact ⟨rfl, Or.inl (Option.some.inj h).symm⟩
  · by_cases hm : m > Max
    · have he : NewPulse sha step Max owner ns os ts m =
          ([], some ErrInvalidParameter) := by
        simp [NewPulse, hpo, hm]
      rw [he] at h ⊢
      exact ⟨rfl, Or.inr (Option.some.inj h).symm⟩
    · rw [newPulse_ok sha step Max owner ns os ts m key hpo (Nat.le_of_not_lt hm)] at h
      exact absurd h (by simp)

/-- Claim C8 witness: a concrete failing call returns the empty pulse and
a sentinel error. -/
theorem C8_error_returns_no_pulse_witness :
    (NewPulse tSha tStep 30 tOwnerNoKey [[byteOf 2]] [3] 5 7).1 = [] ∧
      (ErrPrivateKeyRequired = ErrPrivateKeyRequired ∨
       ErrPrivateKeyRequired = ErrInvalidParameter) :=
  C8_error_returns_no_pulse tSha tStep 30 tOwnerNoKey [[byteOf 2]] [3] 5 7
    ErrPrivateKeyRequired rfl

/-- Claim C9 counterexample: under the spec's stated chain laws alone the
claim fails — with the (64-bit-valued) constant mixing transform, the two
honestly generated pulses at minutes 10 and 20 carry identical chain-value
bytes. -/
theorem C9_counterexample_equal_bytes :
    (NewPulse tSha (fun _ => 7) 20 tOwner [] [] 0 10).2 = none ∧
    (NewPulse tSha (fun _ => 7) 20 tOwner [] [] 0 20).2 = none ∧
    (NewPulse tSha (fun _ => 7) 20 tOwner [] [] 0 10).1.take 8 =
      (NewPulse tSha (fun _ => 7) 20 tOwner [] [] 0 20).1.take 8 := by
  decide

/-- Claim C9, amended: with a collision-free chain segment (distinct
exponents up to `RecordMaxPulseSpan` give distinct chain values — the
formal content of the spec's one-way chain), generations at minutes 10 and
20 both succeed, carry different chain-value bytes 0..7, and have
identical `Token` results. -/
theorem C9_amended_distinct_bytes_same_token (sha : Blob → Blob)
    (step : Nat → Nat) (Max : Nat) (owner : Owner) (ns : List Blob)
    (os : List Nat) (ts : Nat) (key : Blob) (hpk : owner.Private = some key)
    (hMax20 : 20 ≤ Max) (hMax : Max < 2 ^ 24) (hstep : ∀ y, step y < 2 ^ 64)
    (hinj : ∀ a, a ≤ Max → ∀ b, b ≤ Max →
      th64n step (pulseSeed sha owner ns os ts) a =
        th64n step (pulseSeed sha owner ns os ts) b → a = b) :
    (NewPulse sha step Max owner ns os ts 10).2 = none ∧
    (NewPulse sha step Max owner ns os ts 20).2 = none ∧
    (NewPulse sha step Max owner ns os ts 10).1.take 8 ≠
      (NewPulse sha step Max owner ns os ts 20).1.take 8 ∧
    Pulse.Token step Max (NewPulse sha step Max owner ns os ts 10).1 =
      Pulse.Token step Max (NewPulse sha step Max owner ns os ts 20).1 := by
  have h10 : (10 : Nat) ≤ Max := by omega
  have h20 : (20 : Nat) ≤ Max := hMax20
  rw [newPulse_ok sha step Max owner ns os ts 10 key hpk h10,
      newPulse_ok sha step Max owner ns os ts 20 key hpk h20]
  have hSlt := pulseSeed_lt sha owner ns os ts
  have hcv1 : th64n step (pulseSeed sha owner ns os ts) (Max - 10) < 2 ^ 64 :=
    th64n_lt step hstep _ hSlt _
  have hcv2 : th64n step (pulseSeed sha owner ns os ts) (Max - 20) < 2 ^ 64 :=
    th64n_lt step hstep _ hSlt _
  refine ⟨rfl, rfl, ?_, ?_⟩
  · intro heq
    rw [take8_pulseShape, take8_pulseShape] at heq
    have hv : th64n step (pulseSeed sha owner ns os ts) (Max - 10) =
        th64n step (pulseSeed sha owner ns os ts) (Max - 20) := by
      have hb := congrArg beUint64 heq
      rwa [beUint64_putUint64BE _ hcv1, beUint64_putUint64BE _ hcv2] at hb
    have heqn := hinj _ (Nat.sub_le _ _) _ (Nat.sub_le _ _) hv
    omega
  · rw [Pulse.Token, Pulse.Token, key_pulseShape _ hcv1, key_pulseShape _ hcv2,
      minutes_pulseShape Max _ 10 h10 hMax, minutes_pulseShape Max _ 20 h20 hMax,
      th64n_add, th64n_add, Nat.sub_add_cancel h10, Nat.sub_add_cancel h20]

/-- Claim C9 witness: a concrete collision-free chain instance where the
two pulses differ in their chain bytes yet agree on the token. -/
theorem C9_amended_distinct_bytes_same_token_witness :
    (NewPulse tSha tStep 20 tOwner [] [] 0 10).2 = none ∧
    (NewPulse tSha tStep 20 tOwner [] [] 0 20).2 = none ∧
    (NewPulse tSha tStep 20 tOwner [] [] 0 10).1.take 8 ≠
      (NewPulse tSha tStep 20 tOwner [] [] 0 20).1.take 8 ∧
    Pulse.Token tStep 20 (NewPulse tSha tStep 20 tOwner [] [] 0 10).1 =
      Pulse.Token tStep 20 (NewPulse tSha tStep 20 tOwner [] [] 0 20).1 :=
  C9_amended_distinct_bytes_same_token tSha tStep 20 tOwner [] [] 0 []
    rfl (by decide) (by decide) (fun y => Nat.mod_lt (y + 1) (by norm_num))
    (by decide)

/-- Claim C10: surplus ordinals are ignored — two calls agreeing on owner,
selector names, timestamp and minutes whose ordinal lists agree on the
first `len(selectorNames)` entries return identical results. -/
theorem C10_surplus_ordinals_ignored (sha : Blob → Blob) (step : Nat → Nat)
    (Max : Nat) (owner : Owner) (ns : List Blob) (os1 os2 : List Nat)
    (ts m : Nat) (h : os1.take ns.length = os2.take ns.length) :
    NewPulse sha step Max owner ns os1 ts m =
      NewPulse sha step Max owner ns os2 ts m := by
  have hsel : selectorMsg ns os1 = selectorMsg ns os2 := by
    rw [selectorMsg_take ns os1, selectorMsg_take ns os2, h]
  unfold NewPulse
  rw [hsel]

/-- Claim C10 witness: ordinal lists `[3, 4]` and `[3, 5]` with one
selector name give the same pulse. -/
theorem C10_surplus_ordinals_ignored_witness :
    NewPulse tSha tStep 30 tOwner [[byteOf 2]] [3, 4] 5 7 =
      NewPulse tSha tStep 30 tOwner [[byteOf 2]] [3, 5] 5 7 :=
  C10_surplus_ordinals_ignored tSha tStep 30 tOwner [[byteOf 2]] [3, 4] [3, 5]
    5 7 (by decide)

end LF
